import Mathlib

/-!
Shallow embedding of the image-composition pipeline of `img_comp.py`.

The embedding covers the mask-painting loop of
`ImageComposition._compose_images` (lines 321-358), the random paste
placement (lines 327-336), the transform steps of
`_transform_foreground` (lines 360-383), the argument validation of
`_validate_and_process_args` (lines 116-140), the foreground-selection
and registration logic of `_generate_images` (lines 250-299), and the
`MaskJsonUtils` registry (lines 12-101).

Conventions: pixel channels are natural numbers holding uint8 values;
rational numbers stand for Python floats; the values produced by the
`random` module are passed in explicitly, together with support
predicates describing exactly the ranges those calls can produce.
Pillow primitives used by the script (`Image.composite` via `Paste.c`,
`ImageEnhance.Brightness`, `Image.resize`) are embedded following their
reference implementation in Pillow's source.
-/

set_option maxRecDepth 10000

namespace ImgComp

/-- RGB triple, one natural number per 8-bit channel. -/
abbrev RGB := ℕ × ℕ × ℕ

/-- Pixel coordinate (x, y); every mask computation is pointwise. -/
abbrev Pixel := ℕ × ℕ

/-- All three channels of a color fit in a byte, as they do in an image. -/
abbrev isByteRGB (c : RGB) : Prop := c.1 < 256 ∧ c.2.1 < 256 ∧ c.2.2 < 256

/-- Support of Python `random.randint(a, b)`: both endpoints included. -/
abbrev randint_support (a b n : ℤ) : Prop := a ≤ n ∧ n ≤ b

/-- Pillow's `MULDIV255` macro from `Paste.c`: approximate division of
a product by 255 with rounding, `(tmp = a*b + 128, ((tmp >> 8) + tmp) >> 8)`. -/
def muldiv255 (x y : ℕ) : ℕ :=
  let t := x * y + 128
  (t / 256 + t) / 256

/-- Pillow's `BLEND` macro from `Paste.c`, the per-channel formula of
`Image.composite(over_img, under_img, mask)`:
`MULDIV255(under, 255 - mask) + MULDIV255(over, mask)`. -/
def paste_blend (mask under over : ℕ) : ℕ :=
  muldiv255 under (255 - mask) + muldiv255 over mask

/-- The fixed `alpha_threshold = 200` of `_compose_images` (line 344). -/
def alpha_threshold : ℕ := 200

/-- One entry of `np.array(np.greater(new_alpha_mask, alpha_threshold), dtype=np.uint8)`
(line 345): 1 where the padded alpha exceeds the threshold, else 0. -/
def uint8_mask (alpha : ℕ) : ℕ :=
  if alpha_threshold < alpha then 1 else 0

/-- A foreground slot as the mask loop sees it: the assigned
`mask_rgb_color` together with the padded alpha channel
(`new_alpha_mask`) of the transformed, pasted foreground. -/
abbrev Slot := RGB × (Pixel → ℕ)

/-- A slot occupies a pixel when its padded alpha exceeds the threshold,
i.e. its `uint8_mask` entry is 1 there. -/
abbrev occupied (s : Slot) (p : Pixel) : Prop := alpha_threshold < s.2 p

/-- One iteration of the mask-painting loop (lines 344-356): build the
thresholded occupancy `uint8_mask`, the isolated color plane
`uint8_mask * mask_rgb_color`, the binary alpha `uint8_mask * 255`, and
composite the isolated plane over the running mask canvas. -/
def mask_paint_step (prior : Pixel → RGB) (color : RGB) (padded_alpha : Pixel → ℕ) :
    Pixel → RGB :=
  fun p =>
    let u := uint8_mask (padded_alpha p)
    let isolated_alpha := u * 255
    ( paste_blend isolated_alpha (prior p).1 (u * color.1),
      paste_blend isolated_alpha (prior p).2.1 (u * color.2.1),
      paste_blend isolated_alpha (prior p).2.2 (u * color.2.2) )

/-- Fold of the mask-painting step over a list of slots, starting from a
given canvas. -/
def paint_fold (init : Pixel → RGB) (slots : List Slot) : Pixel → RGB :=
  slots.foldl (fun m s => mask_paint_step m s.1 s.2) init

/-- The mask half of `_compose_images`: the canvas starts as
`Image.new('RGB', size, 0)` (line 319), i.e. all-black, and each
foreground paints it in list order. -/
def compose_mask (slots : List Slot) : Pixel → RGB :=
  paint_fold (fun _ => (0, 0, 0)) slots

/-- Lookup in an association list, the model of a Python `dict.get`:
the first entry with the given key, if any. -/
def lookup_assoc {α β : Type} [DecidableEq α] (l : List (α × β)) (k : α) : Option β :=
  match l with
  | [] => none
  | (k0, v0) :: t => if k0 = k then some v0 else lookup_assoc t k

/-- Assignment `d[k] = v` on a Python `dict`: replace the value of an
existing key in place, else append the new entry (insertion order). -/
def update_assoc {α β : Type} [DecidableEq α] (l : List (α × β)) (k : α) (v : β) :
    List (α × β) :=
  match l with
  | [] => [(k, v)]
  | (k0, v0) :: t => if k0 = k then (k, v) :: t else (k0, v0) :: update_assoc t k v

/-- The per-color value stored in a `color_categories` map: the
`category` and `super_category` strings. -/
abbrev CatEntry := String × String

/-- The value stored by `MaskJsonUtils.add_mask` under an image path:
the mask path and the color-to-category map (lines 61-64).  The map is
an association list keyed by the RGB color (Python keys it by
`str(color)`, which is injective on RGB triples). -/
structure MaskDef where
  mask : String
  color_categories : List (RGB × CatEntry)
deriving DecidableEq

/-- State of `MaskJsonUtils` (lines 16-23): the mask dictionary and the
super-category taxonomy.  Category sets are modelled as lists without
relying on an order. -/
structure MaskJsonUtils where
  masks : List (String × MaskDef)
  super_categories : List (String × List String)
deriving DecidableEq

/-- The method `MaskJsonUtils.add_category` (lines 25-43), acting on the
`super_categories` taxonomy it reads and writes.  The Python guard
`if not self.super_categories.get(super_category)` is falsy both for a
missing key and for an empty set, so both cases install `{category}`. -/
def add_category (sc : List (String × List String)) (category super_category : String) :
    Bool × List (String × List String) :=
  match lookup_assoc sc super_category with
  | none => (true, update_assoc sc super_category [category])
  | some cats =>
    if cats.isEmpty then (true, update_assoc sc super_category [category])
    else if category ∈ cats then (false, sc)
    else (true, update_assoc sc super_category (cats ++ [category]))

/-- The method `MaskJsonUtils.add_mask` (lines 45-73).  The guard
`if self.masks.get(image_path)` is truthy exactly when the key is
present, because every stored mask definition is a non-empty dict; in
that case the call returns `False` and changes nothing.  Otherwise it
stores the mask definition and folds every `(category, super_category)`
pair of the map into the taxonomy via `add_category`. -/
def add_mask (m : MaskJsonUtils) (image_path mask_path : String)
    (color_categories : List (RGB × CatEntry)) : Bool × MaskJsonUtils :=
  if (lookup_assoc m.masks image_path).isSome then (false, m)
  else
    let mask : MaskDef := ⟨mask_path, color_categories⟩
    let m1 : MaskJsonUtils := { m with masks := update_assoc m.masks image_path mask }
    let m2 := color_categories.foldl
      (fun acc it => { acc with
        super_categories := (add_category acc.super_categories it.2.1 it.2.2).2 }) m1
    (true, m2)

/-- Effect of the `add_category` fold of `add_mask` on the taxonomy
alone (line 70-71): fold each map value's category pair into it. -/
def fold_color_categories (sc : List (String × List String))
    (color_categories : List (RGB × CatEntry)) : List (String × List String) :=
  color_categories.foldl (fun acc it => (add_category acc it.2.1 it.2.2).2) sc

/-- Errors surfaced by `_validate_and_process_args`: a failed `assert`
with its message, the `AttributeError` of reading an attribute that was
never assigned, and the `IndexError` of indexing an empty string. -/
inductive ArgError where
  | assertError (msg : String)
  | attributeError
  | indexError
deriving DecidableEq

/-- Scalar configuration produced by a successful validation. -/
structure Config where
  count : ℤ
  width : ℤ
  height : ℤ
  output_type : String
deriving DecidableEq

/-- The list `allowed_output_types` set in `ImageComposition.__init__`
(line 109). -/
def allowed_output_types : List String := [".png", ".jpg", ".jpeg"]

/-- The scalar part of `_validate_and_process_args` (lines 116-136).
The `assert` statements are modelled as early error returns.  In the
branch where `args.output_type` already starts with a dot, the Python
code never assigns `self.output_type` before the membership `assert`
reads it, so that branch raises `AttributeError` for every input. -/
def validate_and_process_args (count width height : ℤ) (output_type : Option String) :
    Except ArgError Config :=
  if ¬ count > 0 then Except.error (ArgError.assertError "cuenta debe ser mayor que 0")
  else if ¬ width ≥ 64 then
    Except.error (ArgError.assertError "ancho tiene que ser mayor que 64")
  else if ¬ height ≥ 64 then
    Except.error (ArgError.assertError "altura tiene que ser mayor que 64")
  else
    match output_type with
    | none => Except.ok ⟨count, width, height, ".jpg"⟩
    | some s =>
      if s.length = 0 then Except.error ArgError.indexError
      else if s.take 1 ≠ "." then
        let ot := "." ++ s
        if ot ∈ allowed_output_types then Except.ok ⟨count, width, height, ot⟩
        else Except.error (ArgError.assertError ("output_type is not supported: " ++ ot))
      else Except.error ArgError.attributeError

/-- Pillow resampling filters used by the script. -/
inductive Resample where
  | nearest
  | bilinear
  | bicubic
deriving DecidableEq

/-- The parameters of the `Image.rotate` call. -/
structure RotateOp where
  angle : ℤ
  resample : Resample
  expand : Bool
deriving DecidableEq

/-- The rotation of `_transform_foreground` (line 369):
`fg_image.rotate(angle_degrees, resample=Image.BICUBIC, expand=True)`. -/
def rotate_params (angle_degrees : ℤ) : RotateOp :=
  ⟨angle_degrees, Resample.bicubic, true⟩

/-- The set of rotation angles the transform can draw, as rational
degrees: `angle_degrees = random.randint(0, 359)` (line 368). -/
def angle_support (x : ℚ) : Prop :=
  ∃ n : ℤ, randint_support 0 359 n ∧ (n : ℚ) = x

/-- An RGBA pixel, one natural number per 8-bit channel. -/
structure RGBA where
  r : ℕ
  g : ℕ
  b : ℕ
  a : ℕ
deriving DecidableEq

/-- Conversion of the blended float back to a uint8 in Pillow's
`Blend.c`: clip below 0 and above 255, otherwise truncate. -/
def clamp_trunc_byte (x : ℚ) : ℕ :=
  if x ≤ 0 then 0 else if 255 ≤ x then 255 else (⌊x⌋).toNat

/-- One channel of Pillow's `Image.blend(im1, im2, f)` (`Blend.c`):
`in1 + f * (in2 - in1)`, converted back to a byte. -/
def blend_channel (v1 v2 : ℕ) (f : ℚ) : ℕ :=
  clamp_trunc_byte ((v1 : ℚ) + f * ((v2 : ℚ) - (v1 : ℚ)))

/-- The degenerate image built by `ImageEnhance.Brightness.__init__`:
an all-black image of the same mode, whose alpha band is replaced by
the input's alpha band (`putalpha`) when the image has one. -/
def brightness_degenerate (px : RGBA) : RGBA := ⟨0, 0, 0, px.a⟩

/-- `ImageEnhance.Brightness(fg_image).enhance(f)` (lines 378-379) on
one pixel: `Image.blend(degenerate, image, f)` channel by channel. -/
def enhance_brightness (f : ℚ) (px : RGBA) : RGBA :=
  let d := brightness_degenerate px
  ⟨blend_channel d.r px.r f, blend_channel d.g px.g f,
    blend_channel d.b px.b f, blend_channel d.a px.a f⟩

/-- Support of `brightness_factor = random.random() * .4 + .7`
(line 377), with `random.random()` ranging over [0, 1). -/
def brightness_factor_support (f : ℚ) : Prop :=
  ∃ r : ℚ, 0 ≤ r ∧ r < 1 ∧ f = r * (4/10) + 7/10

/-- The placement guard of `_compose_images` (lines 328-331):
`max_x_position = cw - fw`, `max_y_position = ch - fh`, and the
`assert` that both are non-negative. -/
def placement_ok (cw ch fw fh : ℤ) : Bool :=
  decide (0 ≤ cw - fw) && decide (0 ≤ ch - fh)

/-- Support of the random paste offset (line 332):
`(random.randint(0, max_x_position), random.randint(0, max_y_position))`. -/
abbrev paste_position_support (cw ch fw fh : ℤ) (pos : ℤ × ℤ) : Prop :=
  randint_support 0 (cw - fw) pos.1 ∧ randint_support 0 (ch - fh) pos.2

/-- Support of `scale = random.random() * .5 + .5` (line 372). -/
def scale_support (s : ℚ) : Prop :=
  ∃ r : ℚ, 0 ≤ r ∧ r < 1 ∧ s = r * (5/10) + 5/10

/-- The scale step's target size (line 373):
`(int(fg_image.size[0] * scale), int(fg_image.size[1] * scale))`,
Python `int()` truncating the non-negative product. -/
def new_size (w h : ℕ) (s : ℚ) : ℕ × ℕ :=
  ((⌊(w : ℚ) * s⌋).toNat, (⌊(h : ℚ) * s⌋).toNat)

/-- Failure mode of Pillow's `Image.resize` (`Resample.c`): a target
width or height below 1 raises a `ValueError`. -/
inductive ResizeError where
  | sizeNotPositive
deriving DecidableEq

/-- The resize of `_transform_foreground` (lines 373-374): compute the
truncated target size and resize, which Pillow rejects when either
target dimension is below 1. -/
def resize_image (w h : ℕ) (s : ℚ) : Except ResizeError (ℕ × ℕ) :=
  let ns := new_size w h s
  if ns.1 < 1 ∨ ns.2 < 1 then Except.error ResizeError.sizeNotPositive
  else Except.ok ns

/-- The fixed palette `mask_colors` of `ImageComposition.__init__`
(line 113). -/
def mask_colors : List RGB := [(255, 0, 0), (0, 255, 0), (0, 0, 255)]

/-- The default `max_foregrounds = 3` of `ImageComposition.__init__`
(line 112). -/
def max_foregrounds : ℕ := 3

/-- Support of `num_foregrounds = random.randint(1, self.max_foregrounds)`
(line 250). -/
abbrev num_foregrounds_support (k : ℕ) : Prop := 1 ≤ k ∧ k ≤ max_foregrounds

/-- One record appended to `foregrounds` in `_generate_images`
(lines 261-266). -/
structure FgSpec where
  super_category : String
  category : String
  foreground_path : String
  mask_rgb_color : RGB
deriving DecidableEq

/-- The `foregrounds_dict` catalog: super-category name to category
name to list of image paths. -/
abbrev FgCatalog := List (String × List (String × List String))

/-- Membership of a (super_category, category, path) triple in the
catalog, the reachable outcomes of the three nested `random.choice`
calls (lines 254-256). -/
abbrev catalog_has (catalog : FgCatalog) (sc c path : String) : Prop :=
  ∃ se ∈ catalog, se.1 = sc ∧ ∃ ce ∈ se.2, ce.1 = c ∧ path ∈ ce.2

/-- Support of the whole slot-selection loop of `_generate_images`
(lines 250-266): a possible `foregrounds` list has a length drawn from
`randint(1, max_foregrounds)`, each slot independently drawn from the
catalog (with replacement), and slot `i` assigned `mask_colors[i]`. -/
abbrev selection_support (catalog : FgCatalog) (fgs : List FgSpec) : Prop :=
  num_foregrounds_support fgs.length ∧
    ∀ i : Fin fgs.length,
      catalog_has catalog (fgs.get i).super_category (fgs.get i).category
          (fgs.get i).foreground_path ∧
        (fgs.get i).mask_rgb_color = mask_colors.getD i.val (0, 0, 0)

/-- The registration loop of `_generate_images` (lines 284-292): build
the sample's `color_categories` dict keyed by each slot's assigned
color, regardless of what the mask image contains. -/
def sample_color_categories (foregrounds : List FgSpec) : List (RGB × CatEntry) :=
  foregrounds.foldl
    (fun acc fg => update_assoc acc fg.mask_rgb_color (fg.category, fg.super_category)) []

/-- A concrete two-slot sample whose second slot fully overwrites the
first everywhere: both padded alphas are 255 at every pixel. -/
def fgs_overwrite : List FgSpec :=
  [⟨"s", "c", "fg1.png", (255, 0, 0)⟩, ⟨"s", "c", "fg2.png", (0, 255, 0)⟩]

/-- The compositor slots of the sample `fgs_overwrite`. -/
def slots_overwrite : List Slot :=
  [((255, 0, 0), fun _ => 255), ((0, 255, 0), fun _ => 255)]

/-- A one-asset catalog: super-category "s", category "c", one file. -/
def catalog_demo : FgCatalog := [("s", [("c", ["fg.png"])])]

/-- A possible selection drawing the same asset for both slots. -/
def fgs_pair : List FgSpec :=
  [⟨"s", "c", "fg.png", (255, 0, 0)⟩, ⟨"s", "c", "fg.png", (0, 255, 0)⟩]

theorem muldiv255_255 : ∀ v < 256, muldiv255 v 255 = v := by decide

theorem muldiv255_zero (v : ℕ) : muldiv255 v 0 = 0 := by
  simp [muldiv255]

theorem paste_blend_full (under over : ℕ) (h : over < 256) :
    paste_blend 255 under over = over := by
  simp [paste_blend, muldiv255_zero, muldiv255_255 over h]

theorem paste_blend_none (under over : ℕ) (h : under < 256) :
    paste_blend 0 under over = under := by
  simp [paste_blend, muldiv255_zero, muldiv255_255 under h]

theorem mask_paint_step_occ {m : Pixel → RGB} {c : RGB} {a : Pixel → ℕ} {p : Pixel}
    (hc : isByteRGB c) (h : alpha_threshold < a p) :
    mask_paint_step m c a p = c := by
  obtain ⟨c1, c2, c3⟩ := c
  obtain ⟨h1, h2, h3⟩ := hc
  simp only [mask_paint_step, uint8_mask, if_pos h, one_mul]
  exact Prod.ext (paste_blend_full _ _ h1)
    (Prod.ext (paste_blend_full _ _ h2) (paste_blend_full _ _ h3))

theorem mask_paint_step_not_occ {m : Pixel → RGB} {c : RGB} {a : Pixel → ℕ} {p : Pixel}
    (hm : isByteRGB (m p)) (h : ¬ alpha_threshold < a p) :
    mask_paint_step m c a p = m p := by
  obtain ⟨h1, h2, h3⟩ := hm
  simp only [mask_paint_step, uint8_mask, if_neg h, zero_mul]
  exact Prod.ext (paste_blend_none _ _ h1)
    (Prod.ext (paste_blend_none _ _ h2) (paste_blend_none _ _ h3))

theorem mask_paint_step_byte {m : Pixel → RGB} {c : RGB} {a : Pixel → ℕ} {p : Pixel}
    (hc : isByteRGB c) (hm : isByteRGB (m p)) :
    isByteRGB (mask_paint_step m c a p) := by
  by_cases h : alpha_threshold < a p
  · rw [mask_paint_step_occ hc h]; exact hc
  · rw [mask_paint_step_not_occ hm h]; exact hm

theorem paint_fold_spec :
    ∀ (l : List Slot) (init : Pixel → RGB) (p : Pixel),
      (∀ s ∈ l, isByteRGB s.1) → isByteRGB (init p) →
      (paint_fold init l p = init p ∨ paint_fold init l p ∈ l.map Prod.fst) ∧
        isByteRGB (paint_fold init l p) := by
  intro l
  induction l with
  | nil =>
    intro init p _ hm
    exact ⟨Or.inl rfl, hm⟩
  | cons s t ih =>
    intro init p hb hm
    have hs : isByteRGB s.1 := hb s (List.mem_cons_self s t)
    have ht : ∀ x ∈ t, isByteRGB x.1 := fun x hx => hb x (List.mem_cons_of_mem s hx)
    have hstep : isByteRGB (mask_paint_step init s.1 s.2 p) := mask_paint_step_byte hs hm
    have hrec := ih (mask_paint_step init s.1 s.2) p ht hstep
    have hfold : paint_fold init (s :: t) = paint_fold (mask_paint_step init s.1 s.2) t := rfl
    rw [hfold]
    refine ⟨?_, hrec.2⟩
    rcases hrec.1 with h | h
    · by_cases hocc : alpha_threshold < s.2 p
      · refine Or.inr ?_
        rw [h, mask_paint_step_occ hs hocc]
        exact List.mem_cons_self _ _
      · refine Or.inl ?_
        rw [h, mask_paint_step_not_occ hm hocc]
    · exact Or.inr (List.mem_cons_of_mem _ h)

theorem paint_fold_unoccupied :
    ∀ (l : List Slot) (init : Pixel → RGB) (p : Pixel),
      (∀ s ∈ l, ¬ occupied s p) → isByteRGB (init p) →
      paint_fold init l p = init p := by
  intro l
  induction l with
  | nil => intro init p _ _; rfl
  | cons s t ih =>
    intro init p h hm
    have hs : ¬ occupied s p := h s (List.mem_cons_self s t)
    have hstep : mask_paint_step init s.1 s.2 p = init p := mask_paint_step_not_occ hm hs
    have hfold : paint_fold init (s :: t) = paint_fold (mask_paint_step init s.1 s.2) t := rfl
    rw [hfold, ih _ p (fun x hx => h x (List.mem_cons_of_mem s hx)) (hstep ▸ hm)]
    exact hstep

/-- C1: every pixel of the final mask is either the background color
(0,0,0) or exactly one of the colors assigned to the sample's slots,
never a blended value: the binary occupancy alpha (0 or 255) makes each
painting step fully overwrite at occupied pixels and fully preserve the
prior canvas elsewhere. -/
theorem C1_mask_pixel_background_or_slot_color (slots : List Slot) (p : Pixel)
    (hb : ∀ s ∈ slots, isByteRGB s.1) :
    compose_mask slots p = (0, 0, 0) ∨ compose_mask slots p ∈ slots.map Prod.fst :=
  (paint_fold_spec slots (fun _ => (0, 0, 0)) p hb
    (show isByteRGB ((0 : ℕ), (0 : ℕ), (0 : ℕ)) by decide)).1

theorem C1_witness :
    (∀ s ∈ ([((255, 0, 0), fun _ => 255)] : List Slot), isByteRGB s.1) ∧
      (compose_mask [((255, 0, 0), fun _ => 255)] (0, 0) = (0, 0, 0) ∨
        compose_mask [((255, 0, 0), fun _ => 255)] (0, 0) ∈
          ([((255, 0, 0), fun _ => 255)] : List Slot).map Prod.fst) :=
  ⟨by decide, C1_mask_pixel_background_or_slot_color
    [((255, 0, 0), fun _ => 255)] (0, 0) (by decide)⟩

theorem paint_fold_append (init : Pixel → RGB) (l1 l2 : List Slot) :
    paint_fold init (l1 ++ l2) = paint_fold (paint_fold init l1) l2 := by
  simp [paint_fold, List.foldl_append]

/-- C2 counterexample: the palette slots of one sample, all three
occupying the pixel (0,0).  Slot 1 (green) is composited after slot 0
(red) and both occupy the pixel, yet the final mask there is slot 2's
blue, not slot 1's green: an occupied pair does not determine the final
color when a later slot also occupies the pixel. -/
theorem C2_counterexample :
    occupied ((255, 0, 0), fun _ => 255) (0, 0) ∧
      occupied ((0, 255, 0), fun _ => 255) (0, 0) ∧
      compose_mask
          [((255, 0, 0), fun _ => 255), ((0, 255, 0), fun _ => 255),
            ((0, 0, 255), fun _ => 255)] (0, 0) ≠ (0, 255, 0) := by
  refine ⟨by decide, by decide, ?_⟩
  have h : compose_mask
      [((255, 0, 0), fun _ => 255), ((0, 255, 0), fun _ => 255),
        ((0, 0, 255), fun _ => 255)] (0, 0) = (0, 0, 255) := rfl
  rw [h]
  decide

/-- C2 (amended): if slot `sj` is composited after slot `si`, both
occupy pixel `p`, and no slot composited after `sj` occupies `p`, then
the final mask color at `p` is `sj`'s assigned color: the last
occupying slot wins at overlaps. -/
theorem C2_last_occupier_wins (pre mid post : List Slot) (si sj : Slot) (p : Pixel)
    (hbyte : isByteRGB sj.1) (hi : occupied si p) (hj : occupied sj p)
    (hpost : ∀ t ∈ post, ¬ occupied t p) :
    compose_mask (pre ++ si :: mid ++ sj :: post) p = sj.1 := by
  have hsplit : pre ++ si :: mid ++ sj :: post = (pre ++ si :: mid) ++ sj :: post := by
    simp
  rw [compose_mask, hsplit, paint_fold_append]
  have hcons : paint_fold (paint_fold (fun _ => (0, 0, 0)) (pre ++ si :: mid)) (sj :: post) =
      paint_fold (mask_paint_step (paint_fold (fun _ => (0, 0, 0)) (pre ++ si :: mid))
        sj.1 sj.2) post := rfl
  rw [hcons]
  have hstep : mask_paint_step (paint_fold (fun _ => (0, 0, 0)) (pre ++ si :: mid))
      sj.1 sj.2 p = sj.1 := mask_paint_step_occ hbyte hj
  rw [paint_fold_unoccupied post _ p hpost (by rw [hstep]; exact hbyte)]
  exact hstep

theorem C2_witness :
    isByteRGB (((0, 255, 0), fun _ : Pixel => 255) : Slot).1 ∧
      occupied ((255, 0, 0), fun _ => 255) (0, 0) ∧
      occupied ((0, 255, 0), fun _ => 255) (0, 0) ∧
      (∀ t ∈ ([((0, 0, 255), fun _ => 0)] : List Slot), ¬ occupied t (0, 0)) ∧
      compose_mask
          [((255, 0, 0), fun _ => 255), ((0, 255, 0), fun _ => 255),
            ((0, 0, 255), fun _ => 0)] (0, 0) = (0, 255, 0) :=
  ⟨by decide, by decide, by decide, by decide,
    C2_last_occupier_wins [] [] [((0, 0, 255), fun _ => 0)]
      ((255, 0, 0), fun _ => 255) ((0, 255, 0), fun _ => 255) (0, 0)
      (by decide) (by decide) (by decide) (by decide)⟩

theorem lookup_assoc_none_update {α β : Type} [DecidableEq α]
    (l : List (α × β)) (k : α) (v : β) (h : lookup_assoc l k = none) :
    update_assoc l k v = l ++ [(k, v)] := by
  induction l with
  | nil => rfl
  | cons hd tl ih =>
    obtain ⟨k0, v0⟩ := hd
    by_cases hk : k0 = k
    · simp [lookup_assoc, hk] at h
    · simp only [lookup_assoc, if_neg hk] at h
      simp [update_assoc, if_neg hk, ih h]

theorem add_mask_fold_eq (color_categories : List (RGB × CatEntry)) :
    ∀ m1 : MaskJsonUtils,
      color_categories.foldl
        (fun acc it => { acc with
          super_categories := (add_category acc.super_categories it.2.1 it.2.2).2 }) m1 =
      ⟨m1.masks, fold_color_categories m1.super_categories color_categories⟩ := by
  induction color_categories with
  | nil => intro m1; cases m1; rfl
  | cons hd tl ih =>
    intro m1
    simp only [List.foldl_cons, fold_color_categories]
    rw [ih]
    rfl

/-- C3: `add_mask` on an already-registered image path returns the
`false` signal and leaves the registry completely unchanged (and, being
a total function, raises nothing); on a new path it returns `true`,
appends the mask entry under the image path, and folds every
`(category, super_category)` pair of the map into the taxonomy. -/
theorem C3_add_mask_duplicate_noop (m : MaskJsonUtils) (ip mp : String)
    (cc : List (RGB × CatEntry)) :
    ((lookup_assoc m.masks ip).isSome → add_mask m ip mp cc = (false, m)) ∧
      (lookup_assoc m.masks ip = none →
        add_mask m ip mp cc =
          (true, ⟨m.masks ++ [(ip, ⟨mp, cc⟩)],
            fold_color_categories m.super_categories cc⟩)) := by
  constructor
  · intro h
    simp [add_mask, h]
  · intro h
    have hnone : (lookup_assoc m.masks ip).isSome = false := by rw [h]; rfl
    simp only [add_mask, hnone, Bool.false_eq_true, if_false]
    rw [add_mask_fold_eq]
    simp [lookup_assoc_none_update m.masks ip _ h]

theorem C3_witness :
    ((lookup_assoc
        (⟨[("images/00000000.png", ⟨"masks/00000000.png", []⟩)],
          [("s", ["c"])]⟩ : MaskJsonUtils).masks "images/00000000.png").isSome →
      add_mask ⟨[("images/00000000.png", ⟨"masks/00000000.png", []⟩)], [("s", ["c"])]⟩
          "images/00000000.png" "masks/x.png" [] =
        (false, ⟨[("images/00000000.png", ⟨"masks/00000000.png", []⟩)], [("s", ["c"])]⟩)) ∧
      add_mask ⟨[("images/00000000.png", ⟨"masks/00000000.png", []⟩)], [("s", ["c"])]⟩
          "images/00000000.png" "masks/x.png" [] =
        (false, ⟨[("images/00000000.png", ⟨"masks/00000000.png", []⟩)], [("s", ["c"])]⟩) ∧
      add_mask ⟨[("images/00000000.png", ⟨"masks/00000000.png", []⟩)], [("s", ["c"])]⟩
          "images/00000001.png" "masks/00000001.png" [((255, 0, 0), ("c2", "s"))] =
        (true, ⟨[("images/00000000.png", ⟨"masks/00000000.png", []⟩),
            ("images/00000001.png", ⟨"masks/00000001.png", [((255, 0, 0), ("c2", "s"))]⟩)],
          fold_color_categories [("s", ["c"])] [((255, 0, 0), ("c2", "s"))]⟩) := by
  refine ⟨(C3_add_mask_duplicate_noop _ "images/00000000.png" "masks/x.png" []).1,
    (C3_add_mask_duplicate_noop _ "images/00000000.png" "masks/x.png" []).1 (by decide),
    (C3_add_mask_duplicate_noop _ "images/00000001.png" "masks/00000001.png"
      [((255, 0, 0), ("c2", "s"))]).2 (by decide)⟩

/-- C4 counterexample: 0.5 degrees lies in the real interval [0, 360)
but is not a possible rotation parameter, because
`random.randint(0, 359)` only produces integers; so the angle is not
distributed over the whole real interval. -/
theorem C4_counterexample :
    (0 : ℚ) ≤ 1/2 ∧ (1/2 : ℚ) < 360 ∧ ¬ angle_support (1/2) := by
  refine ⟨by norm_num, by norm_num, ?_⟩
  rintro ⟨n, ⟨h0, h1⟩, hn⟩
  have h2 : (2 : ℚ) * (n : ℚ) = 1 := by
    rw [hn]; norm_num
  have h3 : (2 * n : ℤ) = 1 := by exact_mod_cast h2
  omega

/-- C4 (amended): the rotation angle is an integer number of degrees
drawn uniformly from 0..359 — every integer angle of [0, 360) is a
possible parameter, and the rotation uses bicubic resampling with
`expand=True` so the canvas grows to contain the rotated content. -/
theorem C4_integer_angle_rotation (n : ℤ) (h0 : 0 ≤ n) (h1 : n ≤ 359) :
    angle_support (n : ℚ) ∧ (rotate_params n).angle = n ∧
      (rotate_params n).resample = Resample.bicubic ∧ (rotate_params n).expand = true :=
  ⟨⟨n, ⟨h0, h1⟩, rfl⟩, rfl, rfl, rfl⟩

theorem C4_witness :
    (0 : ℤ) ≤ 45 ∧ (45 : ℤ) ≤ 359 ∧ angle_support ((45 : ℤ) : ℚ) :=
  ⟨by norm_num, by norm_num,
    (C4_integer_angle_rotation 45 (by norm_num) (by norm_num)).1⟩

/-- C5: the validator rejects a non-positive count and any width or
height below 64, accepts exactly 64, defaults a missing format to
`.jpg`, and prepends the missing dot to `png`; but a format given WITH
its leading dot — even the allowed `.png` or `.jpg` — makes the code
read `self.output_type` before any assignment, an `AttributeError`,
instead of accepting it. -/
theorem C5_output_type_dot_bug :
    validate_and_process_args 0 100 100 none =
        Except.error (ArgError.assertError "cuenta debe ser mayor que 0") ∧
      validate_and_process_args 1 63 100 none =
        Except.error (ArgError.assertError "ancho tiene que ser mayor que 64") ∧
      validate_and_process_args 1 100 63 none =
        Except.error (ArgError.assertError "altura tiene que ser mayor que 64") ∧
      validate_and_process_args 1 64 64 none = Except.ok ⟨1, 64, 64, ".jpg"⟩ ∧
      validate_and_process_args 1 64 64 (some "png") = Except.ok ⟨1, 64, 64, ".png"⟩ ∧
      validate_and_process_args 1 100 100 (some "gif") =
        Except.error (ArgError.assertError "output_type is not supported: .gif") ∧
      validate_and_process_args 1 64 64 (some ".png") = Except.error ArgError.attributeError ∧
      validate_and_process_args 1 64 64 (some ".jpg") = Except.error ArgError.attributeError :=
  ⟨rfl, rfl, rfl, rfl, rfl, rfl, rfl, rfl⟩

/-- C7: a foreground whose transformed size equals the canvas size
passes the placement guard, and the random-offset range degenerates to
the single offset (0, 0). -/
theorem C7_exact_fit_placement (w h : ℤ) :
    placement_ok w h w h = true ∧
      ∀ pos : ℤ × ℤ, paste_position_support w h w h pos ↔ pos = (0, 0) := by
  constructor
  · simp [placement_ok]
  · intro pos
    obtain ⟨x, y⟩ := pos
    constructor
    · rintro ⟨⟨hx0, hx1⟩, ⟨hy0, hy1⟩⟩
      have hx : x = 0 := by omega
      have hy : y = 0 := by omega
      rw [hx, hy]
    · rintro h
      obtain ⟨hx, hy⟩ := Prod.mk.injEq .. ▸ h
      constructor
      · constructor <;> omega
      · constructor <;> omega

/-- C10: the scale 9/10 is in the support of `random.random() * .5 + .5`,
and scaling a rotated foreground with a 1-pixel axis (here 1 x 5) by it
truncates the width to `int(0.9) = 0`, so the resize is to a zero-sized
image and fails — before any placement geometry is even considered. -/
theorem C10_zero_size_resize_failure :
    scale_support (9/10) ∧ new_size 1 5 (9/10) = (0, 4) ∧
      resize_image 1 5 (9/10) = Except.error ResizeError.sizeNotPositive := by
  have h : new_size 1 5 (9/10) = (0, 4) := by
    show ((⌊(1 : ℚ) * (9/10)⌋).toNat, (⌊(5 : ℚ) * (9/10)⌋).toNat) = (0, 4)
    norm_num
    rfl
  refine ⟨⟨4/5, by norm_num, by norm_num, by norm_num⟩, h, ?_⟩
  show (if (new_size 1 5 (9/10)).1 < 1 ∨ (new_size 1 5 (9/10)).2 < 1 then
      Except.error ResizeError.sizeNotPositive
    else Except.ok (new_size 1 5 (9/10))) = Except.error ResizeError.sizeNotPositive
  rw [h]
  norm_num

theorem clamp_trunc_byte_natCast (n : ℕ) (h : n ≤ 255) :
    clamp_trunc_byte (n : ℚ) = n := by
  unfold clamp_trunc_byte
  split_ifs with h1 h2
  · have : n = 0 := by exact_mod_cast le_antisymm h1 (by positivity)
    rw [this]
  · have h3 : (255 : ℕ) ≤ n := by exact_mod_cast h2
    have : n = 255 := le_antisymm h h3
    rw [this]
  · rw [Int.floor_natCast]
    rfl

/-- C6: with any factor the brightness draw can produce — `f` in
[0.7, 1.1] — the brightness step sends each color channel `v` to the
byte conversion of `f * v` and leaves the alpha channel exactly
unchanged, because the degenerate image carries the original alpha
band. -/
theorem C6_brightness_preserves_alpha (f : ℚ) (px : RGBA)
    (hf : brightness_factor_support f) (ha : px.a ≤ 255) :
    (enhance_brightness f px).a = px.a ∧
      7/10 ≤ f ∧ f ≤ 11/10 ∧
      (enhance_brightness f px).r = clamp_trunc_byte (f * px.r) ∧
      (enhance_brightness f px).g = clamp_trunc_byte (f * px.g) ∧
      (enhance_brightness f px).b = clamp_trunc_byte (f * px.b) := by
  obtain ⟨r, hr0, hr1, rfl⟩ := hf
  have hmul0 : 0 ≤ r * (4/10) := by positivity
  have hmul1 : r * (4/10) ≤ 1 * (4/10) :=
    mul_le_mul_of_nonneg_right hr1.le (by norm_num)
  refine ⟨?_, by linarith, by linarith, ?_, ?_, ?_⟩
  · show blend_channel px.a px.a (r * (4/10) + 7/10) = px.a
    unfold blend_channel
    have heq : (px.a : ℚ) + (r * (4/10) + 7/10) * ((px.a : ℚ) - (px.a : ℚ)) = (px.a : ℚ) := by
      ring
    rw [heq, clamp_trunc_byte_natCast px.a ha]
  · show blend_channel 0 px.r (r * (4/10) + 7/10) = _
    unfold blend_channel
    norm_num
  · show blend_channel 0 px.g (r * (4/10) + 7/10) = _
    unfold blend_channel
    norm_num
  · show blend_channel 0 px.b (r * (4/10) + 7/10) = _
    unfold blend_channel
    norm_num

theorem C6_witness :
    brightness_factor_support (9/10) ∧ (⟨10, 20, 30, 40⟩ : RGBA).a ≤ 255 ∧
      (enhance_brightness (9/10) ⟨10, 20, 30, 40⟩).a = 40 :=
  ⟨⟨1/2, by norm_num, by norm_num, by norm_num⟩, by norm_num,
    (C6_brightness_preserves_alpha (9/10) ⟨10, 20, 30, 40⟩
      ⟨1/2, by norm_num, by norm_num, by norm_num⟩ (by norm_num)).1⟩

theorem lookup_assoc_update {α β : Type} [DecidableEq α]
    (l : List (α × β)) (k k0 : α) (v : β) :
    lookup_assoc (update_assoc l k v) k0 =
      if k = k0 then some v else lookup_assoc l k0 := by
  induction l with
  | nil => rfl
  | cons hd tl ih =>
    obtain ⟨k1, v1⟩ := hd
    by_cases h1 : k1 = k
    · subst h1
      by_cases h0 : k1 = k0
      · subst h0
        simp [update_assoc, lookup_assoc]
      · simp [update_assoc, lookup_assoc, h0]
    · by_cases h0 : k1 = k0
      · subst h0
        have hk : ¬ k = k1 := fun h => h1 h.symm
        simp [update_assoc, lookup_assoc, h1, hk]
      · simp [update_assoc, lookup_assoc, h1, h0, ih]

theorem sample_color_categories_fold_mem :
    ∀ (fgs : List FgSpec) (acc : List (RGB × CatEntry)) (fg : FgSpec),
      fg ∈ fgs ∨ (lookup_assoc acc fg.mask_rgb_color).isSome →
      (lookup_assoc
          (fgs.foldl (fun a f =>
            update_assoc a f.mask_rgb_color (f.category, f.super_category)) acc)
          fg.mask_rgb_color).isSome := by
  intro fgs
  induction fgs with
  | nil =>
    intro acc fg h
    rcases h with h | h
    · exact absurd h (List.not_mem_nil fg)
    · exact h
  | cons f t ih =>
    intro acc fg h
    refine ih (update_assoc acc f.mask_rgb_color (f.category, f.super_category)) fg ?_
    rcases h with h | h
    · rcases List.mem_cons.mp h with h | h
      · refine Or.inr ?_
        rw [h, lookup_assoc_update]
        simp
      · exact Or.inl h
    · refine Or.inr ?_
      rw [lookup_assoc_update]
      by_cases hk : f.mask_rgb_color = fg.mask_rgb_color
      · simp [hk]
      · simp [hk, h]

/-- C8: registration reflects chosen slots, not visible mask colors:
every slot's color is a key of the sample's `color_categories` map; in
particular, in the concrete sample `fgs_overwrite`, whose second slot's
occupancy covers every pixel, the first slot's red (255,0,0) is
registered although no pixel of the final mask has that color. -/
theorem C8_registered_color_absent_from_mask :
    (∀ (fgs : List FgSpec) (fg : FgSpec), fg ∈ fgs →
        (lookup_assoc (sample_color_categories fgs) fg.mask_rgb_color).isSome) ∧
      (lookup_assoc (sample_color_categories fgs_overwrite) (255, 0, 0)).isSome ∧
      ∀ p : Pixel, compose_mask slots_overwrite p ≠ (255, 0, 0) := by
  refine ⟨fun fgs fg h => sample_color_categories_fold_mem fgs [] fg (Or.inl h), ?_, ?_⟩
  · decide
  · intro p
    have h1 : alpha_threshold < (fun _ : Pixel => 255) p := by
      show alpha_threshold < 255
      decide
    have h : compose_mask slots_overwrite p = (0, 255, 0) := by
      show mask_paint_step (mask_paint_step (fun _ => (0, 0, 0)) (255, 0, 0) (fun _ => 255))
          (0, 255, 0) (fun _ => 255) p = (0, 255, 0)
      exact mask_paint_step_occ (by decide) h1
    rw [h]
    decide

theorem C8_witness :
    (⟨"s", "c", "fg1.png", (255, 0, 0)⟩ : FgSpec) ∈ fgs_overwrite ∧
      (lookup_assoc (sample_color_categories fgs_overwrite)
        (FgSpec.mask_rgb_color ⟨"s", "c", "fg1.png", (255, 0, 0)⟩)).isSome :=
  ⟨by decide,
    C8_registered_color_absent_from_mask.1 fgs_overwrite
      ⟨"s", "c", "fg1.png", (255, 0, 0)⟩ (by decide)⟩

/-- C9: slot selection is independent with replacement: from the
one-asset catalog `catalog_demo` the selection `fgs_pair` — the same
asset, category and super-category in both slots — is in the support of
the selection loop, and its `color_categories` map then holds two
distinct color keys carrying identical (category, super_category)
values. -/
theorem C9_replacement_duplicate_categories :
    selection_support catalog_demo fgs_pair ∧
      sample_color_categories fgs_pair =
        [((255, 0, 0), ("c", "s")), ((0, 255, 0), ("c", "s"))] ∧
      ((255, 0, 0) : RGB) ≠ ((0, 255, 0) : RGB) := by
  refine ⟨⟨by decide, ?_⟩, by decide, by decide⟩
  intro i
  fin_cases i <;> exact ⟨by decide, by decide⟩

end ImgComp
